import Mathlib

/-!
Verification development for the Chat-ui RAG retrieval-context pipeline.

Shallow embedding of:
* `src/lib/server/rag/contextBuilder.ts` — `buildRagContextMessage` (context assembly);
* `src/lib/server/rag/client.ts` (server RAG client, appended to `urlSafety.ts`) and
  `src/lib/rag/client.ts` (shared RAG client) — `semanticSearch`, `pollFileStatus`;
* `src/lib/server/rag/queryRewriter.ts` (current revision) and the legacy revision of
  `rewriteQueryWithHistory` appended to `urlSafety.ts`;
* the batched status poll of `RagFileManager.svelte` (`loadFiles`).

Network effects are modelled by passing the HTTP response (or the rewrite model's
outcome) as an explicit parameter; `Date.now()` and `Math.random()` are passed in as
`now`/`randSuffix`.  JavaScript numbers holding integral counts are modelled as
`Nat`/`Int`; similarity scores as `ℚ`.
-/

namespace ChatUiRag

/-- Chunk role, from the `role` field of `ChatFileChunk`
(`"entry" | "dependency" | "supporting"`). -/
inductive Role
  | entry
  | dependency
  | supporting
  deriving DecidableEq, Repr

/-- Printed form of a role, as JavaScript string interpolation would render it. -/
def Role.asString : Role → String
  | .entry => "entry"
  | .dependency => "dependency"
  | .supporting => "supporting"

/-- `ChatFileChunk` from `src/lib/rag/client.ts`. -/
structure ChatFileChunk where
  id : String
  fileId : String
  filename : String
  fileType : String
  fileUrl : String
  text : String
  similarity : ℚ
  pageNumber : Option Int
  role : Role
  deriving DecidableEq, Repr

/-- The `rolePriority` record `{ entry: 1, dependency: 2, supporting: 3 }` in
`buildRagContextMessage`. -/
def rolePriority : Role → Nat
  | .entry => 1
  | .dependency => 2
  | .supporting => 3

/-- The JavaScript sort comparator `(a, b) => rolePriority[a.role] - rolePriority[b.role]`,
as the "comparator ≤ 0" boolean relation that a stable JS `Array.prototype.sort`
realises. -/
def roleLe (a b : ChatFileChunk) : Bool :=
  decide (rolePriority a.role ≤ rolePriority b.role)

/-- `[...chunks].sort((a, b) => rolePriority[a.role] - rolePriority[b.role])` —
ECMAScript sort is stable, so it is a stable merge sort under `roleLe`. -/
def sortedChunks (chunks : List ChatFileChunk) : List ChatFileChunk :=
  chunks.mergeSort roleLe

/-- Splitting a character list on `'.'`, as `String.prototype.split(".")`. -/
def splitOnDotAux : List Char → List Char → List (List Char)
  | [], acc => [acc.reverse]
  | c :: cs, acc =>
    if c = Char.ofNat 46 then acc.reverse :: splitOnDotAux cs []
    else splitOnDotAux cs (c :: acc)

/-- The `langMap` extension → language table in `getLanguageFromFilename`. -/
def langMap : String → Option String
  | "py" => some "python"
  | "js" => some "javascript"
  | "ts" => some "typescript"
  | "tsx" => some "typescript"
  | "jsx" => some "javascript"
  | "java" => some "java"
  | "cpp" => some "cpp"
  | "c" => some "c"
  | "go" => some "go"
  | "rs" => some "rust"
  | "rb" => some "ruby"
  | "php" => some "php"
  | "swift" => some "swift"
  | "kt" => some "kotlin"
  | "cs" => some "csharp"
  | _ => none

/-- `getLanguageFromFilename`: `filename.split(".").pop()?.toLowerCase()` looked up in
`langMap`, defaulting to `"text"`. -/
def getLanguageFromFilename (filename : String) : String :=
  let ext := (splitOnDotAux filename.toList []).getLastD []
  (langMap (String.mk (ext.map Char.toLower))).getD "text"

/-- `String.prototype.trim()` (also the `/^\s+|\s+$/g` replacement), modelled on the
character list. -/
def jsTrim (cs : List Char) : List Char :=
  ((cs.dropWhile Char.isWhitespace).reverse.dropWhile Char.isWhitespace).reverse

/-- One formatted `<coderef>` block of `buildRagContextMessage`; `idx` is the 0-based
position in the post-sort list (the template prints `idx + 1`).  `toFixed(0)` is
modelled by rounding (ties away from the smaller value, as ECMAScript specifies). -/
def formatChunk (chunk : ChatFileChunk) (idx : Nat) : String :=
  let lang := getLanguageFromFilename chunk.filename
  let relevancePercent := toString (round (chunk.similarity * 100))
  "<coderef id=\"" ++ chunk.id ++ "\" index=\"" ++ toString (idx + 1) ++ "\">\n"
    ++ "File: " ++ chunk.filename ++ "\n"
    ++ "Relevance: " ++ relevancePercent ++ "%\n"
    ++ "Role: " ++ chunk.role.asString ++ "\n"
    ++ (match chunk.pageNumber with
        | some n => if n ≠ 0 then "Line: " ++ toString n else ""
        | none => "")
    ++ "\n\n"
    ++ "\x60\x60\x60" ++ lang ++ "\n"
    ++ String.mk (jsTrim chunk.text.toList) ++ "\n"
    ++ "\x60\x60\x60\n"
    ++ "</coderef>"

/-- The `formattedChunks` local of `buildRagContextMessage`: blocks over the
post-sort list, joined by `"\n\n---\n\n"`. -/
def formattedChunks (chunks : List ChatFileChunk) : String :=
  String.intercalate "\n\n---\n\n"
    ((sortedChunks chunks).mapIdx fun idx chunk => formatChunk chunk idx)

/-- The `contextContent` local of `buildRagContextMessage` (fixed preamble and
instruction postamble around the formatted blocks). -/
def contextContent (chunks : List ChatFileChunk) : String :=
  "# Retrieved Code Context\n\n"
    ++ "The following code snippets have been retrieved from the user\x27s codebase and are relevant to their question. Use these references to provide accurate, code-aware answers.\n\n"
    ++ formattedChunks chunks
    ++ "\n\n---\n\n"
    ++ "**Instructions:**\n"
    ++ "- Reference specific files and line numbers when answering\n"
    ++ "- Prioritize chunks marked as \"entry\" role\n"
    ++ "- If multiple files are relevant, explain their relationships\n"
    ++ "- If the context doesn\x27t contain enough information, say so clearly"

/-- The `metadata` field of a RAG context message. -/
structure RagContextMetadata where
  type : String
  chunkIds : List String
  deriving DecidableEq, Repr

/-- `RagContextMessage` from `contextBuilder.ts`; `createdAt` is the `now` timestamp. -/
structure RagContextMessage where
  «from» : String
  content : String
  id : String
  createdAt : Nat
  metadata : RagContextMetadata

/-- `buildRagContextMessage(chunks)`.  The `throw` is modelled as `Except.error`;
`Date.now()` and the random id suffix are the `now` / `randSuffix` parameters. -/
def buildRagContextMessage (chunks : List ChatFileChunk) (now : Nat) (randSuffix : String) :
    Except String RagContextMessage :=
  if chunks.length = 0 then
    .error "Cannot build context from empty chunks"
  else
    .ok
      { «from» := "system"
        content := contextContent chunks
        id := "rag_" ++ toString now ++ "_" ++ randSuffix
        createdAt := now
        metadata := { type := "rag-context", chunkIds := chunks.map fun c => c.id } }

/-- The chunks of a given role, in incoming order. -/
def roleFilter (r : Role) (l : List ChatFileChunk) : List ChatFileChunk :=
  l.filter fun c => decide (c.role = r)

/-! ### Query rewriter (`src/lib/server/rag/queryRewriter.ts` and the legacy revision) -/

/-- A chat `Message` as far as the rewriter consumes it (`from` and `content`). -/
structure Message where
  «from» : String
  content : String
  deriving DecidableEq, Repr

/-- JavaScript `\w` (ASCII word character). -/
def isWordChar (c : Char) : Bool :=
  c.isAlphanum || c = '_'

/-- Case-insensitive match of the (lower-case) pattern against the first characters of
`cs`, as a case-insensitive regex literal does. -/
def matchesLowerAt : List Char → List Char → Bool
  | [], _ => true
  | _ :: _, [] => false
  | p :: ps, c :: cs => decide (c.toLower = p) && matchesLowerAt ps cs

/-- A `\b` word boundary holds after the match when the next character is not a word
character (or the string ends). -/
def boundaryAfter : List Char → Bool
  | [] => true
  | c :: _ => !(isWordChar c)

/-- The extension alternatives of the `hasFilenameReference` regex, in source order. -/
def filenameExtensions : List String :=
  ["py", "js", "ts", "jsx", "tsx", "java", "go", "rs", "cpp", "c", "h", "hpp", "rb",
   "php", "swift", "kt", "scala", "md", "txt", "json", "yaml", "yml", "toml", "ini",
   "cfg", "conf", "xml", "html", "css", "scss", "sql", "sh", "bash", "dockerfile"]

/-- Some extension alternative matches at the head of `cs`, followed by a `\b`. -/
def extMatchAt (cs : List Char) : Bool :=
  filenameExtensions.any fun ext =>
    matchesLowerAt ext.toList cs && boundaryAfter (cs.drop ext.length)

/-- Existence of a match of `\w+\.(ext₁|…)\b` in the character list: a position where a
word character is directly followed by `'.'` and an extension alternative with a word
boundary after it (taking the last character of the `\w+` run). -/
def hasFilenameChars : List Char → Bool
  | [] => false
  | c :: cs =>
    (match cs with
     | d :: rest => isWordChar c && decide (d = Char.ofNat 46) && extMatchAt rest
     | [] => false)
    || hasFilenameChars cs

/-- `hasFilenameReference` from `queryRewriter.ts`: the filename-token regex test. -/
def hasFilenameReference (query : String) : Bool :=
  hasFilenameChars query.toList

/-- The `actionVerbs` list of `isFileActionRequest`, in source order. -/
def actionVerbs : List String :=
  ["summarize", "summary", "explain", "describe", "show me", "what does", "what is",
   "tell me about", "walk through", "overview of"]

/-- `haystack.includes(needle)` on character lists. -/
def containsSub (hay needle : List Char) : Bool :=
  hay.tails.any fun suf => needle.isPrefixOf suf

/-- `isFileActionRequest`: some action verb occurs in the lower-cased query. -/
def isFileActionRequest (query : String) : Bool :=
  actionVerbs.any fun verb => containsSub (query.toList.map Char.toLower) verb.toList

/-- Scan for a match that must start at a `\b` (previous character not a word
character); `prevWord` records whether the previous character was a word character. -/
def scanBoundary (hit : List Char → Bool) : List Char → Bool → Bool
  | [], _ => false
  | c :: cs, prevWord =>
    ((!prevWord) && hit (c :: cs)) || scanBoundary hit cs (isWordChar c)

/-- One keyword alternative matching at the head with a closing `\b`. -/
def wordHit (ws : List String) (cs : List Char) : Bool :=
  ws.any fun w => matchesLowerAt w.toList cs && boundaryAfter (cs.drop w.length)

/-- The keyword alternatives of the first `technicalPatterns` regex, in source order. -/
def technicalWords : List String :=
  ["implementation", "function", "class", "method", "api", "endpoint", "database",
   "query", "algorithm"]

/-- A match of `\bhow (to|do|does)\b` starting at the head of `cs`. -/
def howHit (cs : List Char) : Bool :=
  matchesLowerAt "how ".toList cs &&
    (["to", "do", "does"].any fun w =>
      matchesLowerAt w.toList (cs.drop 4) && boundaryAfter (cs.drop (4 + w.length)))

/-- Scan for a keyword match with a leading `\b`, where the JavaScript `.` cannot cross
a line break: the scan stops at `'\n'`/`'\r'`. -/
def scanBoundarySeg (hit : List Char → Bool) : List Char → Bool → Bool
  | [], _ => false
  | c :: cs, prevWord =>
    if c = Char.ofNat 10 || c = Char.ofNat 13 then false
    else ((!prevWord) && hit (c :: cs)) || scanBoundarySeg hit cs (isWordChar c)

/-- The keyword alternatives of the third `technicalPatterns` regex. -/
def bugWords : List String := ["bug", "error", "issue", "problem", "fix"]

/-- A match of `\b(bug|error|issue|problem|fix)\b.*\b(in|with)\b` starting at the head
of `cs`: a bug keyword with closing boundary, then (without crossing a newline, since
`.` does not match one) a later `in`/`with` between word boundaries. -/
def bugHit (cs : List Char) : Bool :=
  bugWords.any fun w =>
    matchesLowerAt w.toList cs && boundaryAfter (cs.drop w.length)
      && scanBoundarySeg
          (fun tail => wordHit ["in", "with"] tail)
          (cs.drop w.length) true

/-- `isAlreadySearchFriendly`: `technicalPatterns.some(pattern => pattern.test(query))`.
The initial `prevWord` is `false`: the string start is a word boundary. -/
def isAlreadySearchFriendly (query : String) : Bool :=
  scanBoundary (wordHit technicalWords) query.toList false
    || scanBoundary howHit query.toList false
    || scanBoundary bugHit query.toList false

/-- Remainder of the character list after the earliest case-insensitive
`"</think>"`, if any. -/
def afterCloseTag : List Char → Option (List Char)
  | [] => none
  | c :: cs =>
    if matchesLowerAt "</think>".toList (c :: cs) then some (cs.drop 7)
    else afterCloseTag cs

/-- The global replacement `/<think>[\s\S]*?<\/think>/gi → ""`, fuel-bounded so the
definition is structural (the fuel `cs.length` always suffices: each step either drops
one character or a whole matched block). -/
def stripThinkAux : Nat → List Char → List Char
  | 0, cs => cs
  | _ + 1, [] => []
  | fuel + 1, c :: cs =>
    if matchesLowerAt "<think>".toList (c :: cs) then
      match afterCloseTag (cs.drop 6) with
      | some rest => stripThinkAux fuel rest
      | none => c :: stripThinkAux fuel cs
    else c :: stripThinkAux fuel cs

/-- All case-insensitive `<think>…</think>` blocks removed (unclosed openers kept, as
the non-greedy regex requires the closing tag to match at all). -/
def stripThink (cs : List Char) : List Char :=
  stripThinkAux cs.length cs

/-- The quote characters of `/^["'\x60]+|["'\x60]+$/g` (double quote, apostrophe,
backtick). -/
def isQuoteChar (c : Char) : Bool :=
  c = Char.ofNat 34 || c = Char.ofNat 39 || c = Char.ofNat 96

/-- The global replacement `/^["'\x60]+|["'\x60]+$/g → ""`: drop the maximal runs of
quote characters at both ends. -/
def stripOuterQuotes (cs : List Char) : List Char :=
  ((cs.dropWhile isQuoteChar).reverse.dropWhile isQuoteChar).reverse

/-- The replacement `/^(rewritten query:|query:)/i → ""` (first alternative tried
first, as the regex engine does). -/
def stripQueryLabel (cs : List Char) : List Char :=
  if matchesLowerAt "rewritten query:".toList cs then cs.drop 16
  else if matchesLowerAt "query:".toList cs then cs.drop 6
  else cs

/-- Post-processing of the raw model output in the current rewriter revision:
think-block removal, quote-run stripping, whitespace trim, label stripping, final
`.trim()` — in source order. -/
def cleanRewriteOutput (rewritten : String) : String :=
  String.mk (jsTrim (stripQueryLabel (jsTrim (stripOuterQuotes (stripThink rewritten.toList)))))

/-- The legacy revision's replacement `/^["']|["']$/g → ""`: at most one quote
character dropped at each end (no backtick). -/
def stripOneQuote (cs : List Char) : List Char :=
  let a := match cs with
    | c :: rest => if c = Char.ofNat 34 || c = Char.ofNat 39 then rest else cs
    | [] => []
  match a.reverse with
  | c :: rest => if c = Char.ofNat 34 || c = Char.ofNat 39 then rest.reverse else a
  | [] => a

/-- Post-processing in the legacy rewriter revision: think-block removal, whitespace
trim, single-quote stripping — in source order. -/
def legacyCleanOutput (rewritten : String) : String :=
  String.mk (stripOneQuote (jsTrim (stripThink rewritten.toList)))

/-- `conversationHistory.slice(-n)`: the last `n` messages (`slice(-0)` is the whole
list, as in JavaScript). -/
def sliceLast (l : List Message) (n : Nat) : List Message :=
  if n = 0 then l else l.drop (l.length - n)

/-- `RewriteOptions` of the current rewriter revision (`locals` carries no observable
behaviour and is omitted). -/
structure RewriteOptions where
  maxHistoryMessages : Nat := 3
  availableFiles : List String := []

/-- `rewriteQueryWithHistory` from `src/lib/server/rag/queryRewriter.ts`.  The model
invocation (and any exception it raises) is the `modelResult` parameter: `.error`
reaches the `catch` block, `.ok rewritten` is the generator's final value. -/
def rewriteQueryWithHistory (userQuery : String) (conversationHistory : List Message)
    (options : RewriteOptions) (modelResult : Except String String) : String :=
  if userQuery.length < 5 ∨ userQuery.length > 500 then userQuery
  else if hasFilenameReference userQuery && isFileActionRequest userQuery then userQuery
  else if isAlreadySearchFriendly userQuery then userQuery
  else
    let recentHistory :=
      sliceLast (conversationHistory.filter fun msg => !(msg.«from» == "system"))
        options.maxHistoryMessages
    if recentHistory.length = 0 then userQuery
    else
      match modelResult with
      | .error _ => userQuery
      | .ok rewritten =>
        let cleaned := cleanRewriteOutput rewritten
        if cleaned.length = 0 then userQuery
        else if cleaned.length > max 150 (userQuery.length * 4) then userQuery
        else if cleaned.toList.map Char.toLower = userQuery.toList.map Char.toLower then
          userQuery
        else if hasFilenameReference userQuery && !(hasFilenameReference cleaned) then
          userQuery
        else cleaned

/-- The legacy `rewriteQueryWithHistory` revision appended to `urlSafety.ts`: length
gate, history gate, model call, cleaning, and an emptiness/length validation only —
no filename-preservation check. -/
def rewriteQueryWithHistoryLegacy (userQuery : String) (conversationHistory : List Message)
    (maxHistoryMessages : Nat) (modelResult : Except String String) : String :=
  if userQuery.length < 5 ∨ userQuery.length > 500 then userQuery
  else
    let recentHistory :=
      sliceLast (conversationHistory.filter fun msg => !(msg.«from» == "system"))
        maxHistoryMessages
    if recentHistory.length = 0 then userQuery
    else
      match modelResult with
      | .error _ => userQuery
      | .ok rewritten =>
        let cleaned := legacyCleanOutput rewritten
        if cleaned.length = 0 ∨ cleaned.length > max 120 (userQuery.length * 3) then
          userQuery
        else cleaned

/-! ### RAG clients (`src/lib/server/rag/client.ts` and `src/lib/rag/client.ts`) -/

/-- `SemanticSearchRequest`; the optional `top_k` is a JavaScript number, modelled as
an integer. -/
structure SemanticSearchRequest where
  messageId : String
  userQuery : String
  rewriteQuery : Option String
  top_k : Option Int
  fileIds : Option (List String)
  deriving DecidableEq, Repr

/-- `SemanticSearchResponse`. -/
structure SemanticSearchResponse where
  chunks : List ChatFileChunk
  queryId : String
  deriving DecidableEq, Repr

/-- The JSON body `JSON.stringify({...})` sent by `semanticSearch` (identical in both
client files). -/
structure SearchPayload where
  messageId : String
  userQuery : String
  rewriteQuery : Option String
  top_k : Int
  fileIds : Option (List String)
  deriving DecidableEq, Repr

/-- An HTTP response to a search call, as far as the clients observe it: the status
and the parsed JSON body of a successful response. -/
structure SearchHttpResponse where
  status : Nat
  body : SemanticSearchResponse
  deriving DecidableEq, Repr

/-- `Response.ok` of the Fetch standard: status in the range 200–299. -/
def responseOk (status : Nat) : Bool :=
  decide (200 ≤ status) && decide (status < 300)

namespace ServerRAGClient

/-- The request body built by the server client's `semanticSearch`; `top_k:
request.top_k || 5` — the default applies exactly when the field is absent or `0`
(the falsy values an integer can take). -/
def searchPayload (request : SemanticSearchRequest) : SearchPayload :=
  { messageId := request.messageId
    userQuery := request.userQuery
    rewriteQuery := request.rewriteQuery
    top_k :=
      match request.top_k with
      | none => 5
      | some k => if k = 0 then 5 else k
    fileIds := request.fileIds }

/-- `RAGClient.semanticSearch` of the server client (`src/lib/server/rag/client.ts`,
appended to `urlSafety.ts`): a 404 is mapped to the empty result, any other non-ok
status throws, an ok response returns the parsed body. -/
def semanticSearch (request : SemanticSearchRequest) (response : SearchHttpResponse) :
    Except String SemanticSearchResponse :=
  let _payload := searchPayload request
  if !(responseOk response.status) then
    if response.status = 404 then .ok { chunks := [], queryId := "" }
    else .error ("RAG search failed: " ++ toString response.status)
  else .ok response.body

/-- A single status fetch of `pollFileStatus`, as the client observes it: the HTTP
status and the `finishEmbedding` field of the parsed body. -/
structure StatusResponse where
  status : Nat
  finishEmbedding : Bool
  deriving DecidableEq, Repr

/-- The `for` loop of `pollFileStatus`: `attempt` is the current loop index `i`,
the second argument the remaining iterations.  A non-ok fetch throws, `finishEmbedding
=== true` returns `true`, exhausting the attempts returns `false` (timeout). -/
def pollFileStatusAux (statusFetch : Nat → StatusResponse) : Nat → Nat → Except String Bool
  | _, 0 => .ok false
  | attempt, n + 1 =>
    let response := statusFetch attempt
    if !(responseOk response.status) then
      .error ("File status check failed: " ++ toString response.status)
    else if response.finishEmbedding then .ok true
    else pollFileStatusAux statusFetch (attempt + 1) n

/-- `RAGClient.pollFileStatus(fileId, maxAttempts, intervalMs)`; the per-attempt fetch
outcomes are the `statusFetch` parameter (the sleeps have no observable effect here). -/
def pollFileStatus (statusFetch : Nat → StatusResponse) (maxAttempts : Nat) :
    Except String Bool :=
  pollFileStatusAux statusFetch 0 maxAttempts

/-- The number of status fetches the loop of `pollFileStatus` performs, mirroring
`pollFileStatusAux` step for step. -/
def pollFetchCountAux (statusFetch : Nat → StatusResponse) : Nat → Nat → Nat
  | _, 0 => 0
  | attempt, n + 1 =>
    let response := statusFetch attempt
    if !(responseOk response.status) then 1
    else if response.finishEmbedding then 1
    else 1 + pollFetchCountAux statusFetch (attempt + 1) n

/-- Fetch count of a `pollFileStatus` run. -/
def pollFetchCount (statusFetch : Nat → StatusResponse) (maxAttempts : Nat) : Nat :=
  pollFetchCountAux statusFetch 0 maxAttempts

end ServerRAGClient

namespace SharedRAGClient

/-- The request body built by the shared client's `semanticSearch`
(`src/lib/rag/client.ts`) — textually identical to the server client's. -/
def searchPayload (request : SemanticSearchRequest) : SearchPayload :=
  { messageId := request.messageId
    userQuery := request.userQuery
    rewriteQuery := request.rewriteQuery
    top_k :=
      match request.top_k with
      | none => 5
      | some k => if k = 0 then 5 else k
    fileIds := request.fileIds }

/-- `RAGClient.semanticSearch` of the shared client (`src/lib/rag/client.ts`): every
non-ok status — including 404 — throws; there is no empty-result mapping. -/
def semanticSearch (request : SemanticSearchRequest) (response : SearchHttpResponse) :
    Except String SemanticSearchResponse :=
  let _payload := searchPayload request
  if !(responseOk response.status) then
    .error ("RAG Semantic Search failed: " ++ toString response.status)
  else .ok response.body

end SharedRAGClient

/-! ### Batched interval poll (`RagFileManager.svelte`, `loadFiles`) -/

/-- `RagFileMetadata` from `src/lib/rag/client.ts`. -/
structure RagFileMetadata where
  id : String
  name : String
  size : Nat
  fileType : String
  chunkCount : Nat
  chunkingStatus : String
  embeddingStatus : String
  finishEmbedding : Bool
  chunkingError : Option String
  embeddingError : Option String
  createdAt : String
  updatedAt : String
  deriving DecidableEq, Repr

/-- The component state that `loadFiles` mutates: the file list, the `loading` flag,
the error banner, and whether the 1000 ms poll interval is running
(`startPolling`/`stopPolling`). -/
structure FileManagerState where
  files : List RagFileMetadata
  loading : Bool
  errorMsg : String
  pollActive : Bool
  deriving DecidableEq, Repr

/-- One execution of `loadFiles(silent)`, with the outcome of
`ragClient.listFiles(...)` passed in as `result`.  On success the file list is
replaced and polling is started or stopped according to whether some file still has
`finishEmbedding == false`; the `catch` block only sets the error banner (and only
when not silent) — it neither stops polling nor touches the file list. -/
def loadFiles (silent : Bool) (result : Except String (List RagFileMetadata))
    (st : FileManagerState) : FileManagerState :=
  let st1 := { st with loading := if silent then st.loading else true, errorMsg := "" }
  let st2 :=
    match result with
    | .ok files =>
      let hasProcessing := files.any fun f => !f.finishEmbedding
      { st1 with files := files, pollActive := hasProcessing }
    | .error e =>
      if silent then st1 else { st1 with errorMsg := e }
  { st2 with loading := if silent then st2.loading else false }

/-! ### Concrete inputs used by witnesses and counterexamples -/

/-- The message record the non-empty branch of `buildRagContextMessage` returns. -/
def ragMessageOf (chunks : List ChatFileChunk) (now : Nat) (randSuffix : String) :
    RagContextMessage :=
  { «from» := "system"
    content := contextContent chunks
    id := "rag_" ++ toString now ++ "_" ++ randSuffix
    createdAt := now
    metadata := { type := "rag-context", chunkIds := chunks.map fun c => c.id } }

/-- A supporting-role chunk used as concrete input. -/
def chunkSupp : ChatFileChunk :=
  { id := "a", fileId := "f1", filename := "util.py", fileType := "text/x-python",
    fileUrl := "u1", text := "x = 1", similarity := 1, pageNumber := none,
    role := .supporting }

/-- An entry-role chunk used as concrete input. -/
def chunkEntry : ChatFileChunk :=
  { id := "b", fileId := "f2", filename := "main.py", fileType := "text/x-python",
    fileUrl := "u2", text := "y = 2", similarity := 1, pageNumber := none,
    role := .entry }

/-- A concrete search request used as input. -/
def reqEx : SemanticSearchRequest :=
  { messageId := "m1", userQuery := "how does auth work", rewriteQuery := none,
    top_k := none, fileIds := none }

/-- A concrete successful search body used as input. -/
def bodyEx : SemanticSearchResponse :=
  { chunks := [chunkEntry], queryId := "q1" }

/-! ## Helper lemmas -/

theorem roleLe_trans (a b c : ChatFileChunk) (hab : roleLe a b) (hbc : roleLe b c) :
    roleLe a c := by
  simp only [roleLe, decide_eq_true_eq] at *
  omega

theorem roleLe_total (a b : ChatFileChunk) : roleLe a b || roleLe b a := by
  simp only [roleLe, Bool.or_eq_true, decide_eq_true_eq]
  omega

/-- Stability: the stable sort does not change the subsequence of chunks selected by a
predicate under which any two selected chunks compare `roleLe`. -/
theorem filter_sortedChunks (p : ChatFileChunk → Bool)
    (hp : ∀ a b, p a = true → p b = true → roleLe a b = true) (l : List ChatFileChunk) :
    (sortedChunks l).filter p = l.filter p := by
  have hpair : (l.filter p).Pairwise fun a b => roleLe a b = true := by
    apply List.pairwise_of_forall_mem_list
    intro a ha b hb
    exact hp a b (List.mem_filter.mp ha).2 (List.mem_filter.mp hb).2
  have hsub : List.Sublist (l.filter p) (sortedChunks l) :=
    List.sublist_mergeSort roleLe_trans roleLe_total hpair (List.filter_sublist l)
  have hself : (l.filter p).filter p = l.filter p :=
    List.filter_eq_self.mpr fun a ha => (List.mem_filter.mp ha).2
  have hsub2 : List.Sublist (l.filter p) ((sortedChunks l).filter p) := by
    have := hsub.filter p
    rwa [hself] at this
  have hlen : ((sortedChunks l).filter p).length = (l.filter p).length :=
    ((List.mergeSort_perm l roleLe).filter p).length_eq
  exact (hsub2.eq_of_length hlen.symm).symm

/-- A list sorted under `roleLe` is its entry chunks, then its dependency chunks, then
its supporting chunks. -/
theorem sorted_eq_role_groups (m : List ChatFileChunk)
    (h : m.Pairwise fun a b => roleLe a b = true) :
    m = roleFilter .entry m ++ roleFilter .dependency m ++ roleFilter .supporting m := by
  induction m with
  | nil => rfl
  | cons a t ih =>
    rw [List.pairwise_cons] at h
    obtain ⟨ha, ht⟩ := h
    have ih' := ih ht
    simp only [roleLe, decide_eq_true_eq] at ha
    simp only [roleFilter, List.filter_cons]
    cases hr : a.role with
    | entry =>
      simp only [hr, decide_eq_true_eq, reduceIte, if_pos rfl]
      simp only [reduceCtorEq, decide_False, if_neg Bool.false_ne_true]
      conv_lhs => rw [ih']
      simp [roleFilter, List.cons_append]
    | dependency =>
      have hentry : t.filter (fun c => decide (c.role = Role.entry)) = [] := by
        rw [List.filter_eq_nil_iff]
        intro b hb
        have := ha b hb
        rw [hr] at this
        simp only [decide_eq_true_eq]
        intro hcon
        rw [hcon] at this
        simp [rolePriority] at this
      simp only [hr, reduceCtorEq, decide_False, if_neg Bool.false_ne_true,
        decide_eq_true_eq, if_pos rfl]
      conv_lhs => rw [ih']
      simp [roleFilter, hentry]
    | supporting =>
      have hentry : t.filter (fun c => decide (c.role = Role.entry)) = [] := by
        rw [List.filter_eq_nil_iff]
        intro b hb
        have := ha b hb
        rw [hr] at this
        simp only [decide_eq_true_eq]
        intro hcon
        rw [hcon] at this
        simp [rolePriority] at this
      have hdep : t.filter (fun c => decide (c.role = Role.dependency)) = [] := by
        rw [List.filter_eq_nil_iff]
        intro b hb
        have := ha b hb
        rw [hr] at this
        simp only [decide_eq_true_eq]
        intro hcon
        rw [hcon] at this
        simp [rolePriority] at this
      simp only [hr, reduceCtorEq, decide_False, if_neg Bool.false_ne_true,
        decide_eq_true_eq, if_pos rfl]
      conv_lhs => rw [ih']
      simp [roleFilter, hentry, hdep]

/-- The stable role sort groups the chunks: all entry chunks (in incoming order), then
all dependency chunks, then all supporting chunks. -/
theorem sortedChunks_eq_groups (l : List ChatFileChunk) :
    sortedChunks l =
      roleFilter .entry l ++ roleFilter .dependency l ++ roleFilter .supporting l := by
  have hs : (sortedChunks l).Pairwise fun a b => roleLe a b = true :=
    List.sorted_mergeSort roleLe_trans roleLe_total l
  have hgroups := sorted_eq_role_groups (sortedChunks l) hs
  have he : roleFilter .entry (sortedChunks l) = roleFilter .entry l :=
    filter_sortedChunks _ (fun a b hpa hpb => by
      simp only [decide_eq_true_eq] at hpa hpb
      simp [roleLe, hpa, hpb]) l
  have hd : roleFilter .dependency (sortedChunks l) = roleFilter .dependency l :=
    filter_sortedChunks _ (fun a b hpa hpb => by
      simp only [decide_eq_true_eq] at hpa hpb
      simp [roleLe, hpa, hpb]) l
  have hsupp : roleFilter .supporting (sortedChunks l) = roleFilter .supporting l :=
    filter_sortedChunks _ (fun a b hpa hpb => by
      simp only [decide_eq_true_eq] at hpa hpb
      simp [roleLe, hpa, hpb]) l
  rw [hgroups, he, hd, hsupp]

/-- Sorting an already role-sorted list changes nothing. -/
theorem sortedChunks_idem (l : List ChatFileChunk) :
    sortedChunks (sortedChunks l) = sortedChunks l :=
  List.mergeSort_of_sorted (List.sorted_mergeSort roleLe_trans roleLe_total l)

/-- The non-empty branch of `buildRagContextMessage` yields exactly `ragMessageOf`. -/
theorem buildRagContextMessage_ok (chunks : List ChatFileChunk) (now : Nat)
    (randSuffix : String) (h : chunks ≠ []) :
    buildRagContextMessage chunks now randSuffix = .ok (ragMessageOf chunks now randSuffix) := by
  have hlen : ¬ chunks.length = 0 := by simpa using h
  rw [buildRagContextMessage, if_neg hlen]
  rfl

/-! ## Claim theorems -/

/-- C5: for every non-empty chunk sequence, `buildRagContextMessage` emits its blocks
grouped with all entry chunks before all dependency chunks before all supporting
chunks, two chunks of the same role keeping their incoming relative order (the sort is
stable), and re-sorting the sorted sequence yields the same grouping. -/
theorem claim5_role_grouping (chunks : List ChatFileChunk) (h : chunks ≠ []) :
    sortedChunks chunks =
        roleFilter .entry chunks ++ roleFilter .dependency chunks
          ++ roleFilter .supporting chunks
      ∧ sortedChunks (sortedChunks chunks) = sortedChunks chunks
      ∧ formattedChunks chunks =
          String.intercalate "\n\n---\n\n"
            ((roleFilter .entry chunks ++ roleFilter .dependency chunks
                ++ roleFilter .supporting chunks).mapIdx
              fun idx chunk => formatChunk chunk idx) := by
  refine ⟨sortedChunks_eq_groups chunks, sortedChunks_idem chunks, ?_⟩
  rw [formattedChunks, sortedChunks_eq_groups]

/-- Witness for C5 at a concrete two-chunk input: the supporting chunk is moved after
the entry chunk. -/
theorem claim5_witness :
    sortedChunks [chunkSupp, chunkEntry] = [chunkEntry, chunkSupp] :=
  (claim5_role_grouping [chunkSupp, chunkEntry] (by decide)).1.trans (by decide)

/-- C6: `buildRagContextMessage` on an empty chunk sequence fails with the
empty-context error, and produces a unit for every non-empty sequence. -/
theorem claim6_empty_context (chunks : List ChatFileChunk) (now : Nat)
    (randSuffix : String) :
    buildRagContextMessage [] now randSuffix =
        .error "Cannot build context from empty chunks"
      ∧ (chunks ≠ [] →
          ∃ msg, buildRagContextMessage chunks now randSuffix = .ok msg) := by
  constructor
  · rfl
  · intro h
    exact ⟨ragMessageOf chunks now randSuffix, buildRagContextMessage_ok chunks now randSuffix h⟩

/-- Witness for C6 at a concrete one-chunk input. -/
theorem claim6_witness :
    buildRagContextMessage [] 0 "r" = .error "Cannot build context from empty chunks"
      ∧ ∃ msg, buildRagContextMessage [chunkEntry] 0 "r" = .ok msg := by
  have h := claim6_empty_context [chunkEntry] 0 "r"
  exact ⟨h.1, h.2 (by decide)⟩

/-- C1 as stated is false: `buildRagContextMessage` records `chunkIds` from the
incoming (pre-sort) chunk order, not the post-sort order.  At the concrete input
`[chunkSupp, chunkEntry]` the produced `chunkIds` is `["a", "b"]` while the post-sort
id sequence is `["b", "a"]`. -/
theorem claim1_counterexample :
    (buildRagContextMessage [chunkSupp, chunkEntry] 0 "r").toOption.map
        (fun m => m.metadata.chunkIds) = some ["a", "b"]
      ∧ (sortedChunks [chunkSupp, chunkEntry]).map (fun c => c.id) = ["b", "a"]
      ∧ (["a", "b"] : List String) ≠ ["b", "a"] := by
  refine ⟨rfl, ?_, by decide⟩
  rw [sortedChunks_eq_groups]
  decide

/-- C1 amended: for every non-empty input, `metadata.chunkIds` is the sequence of
chunk ids in the incoming (pre-sort) order; in particular a single entry chunk yields
the one-element sequence of its id. -/
theorem claim1_chunkIds_incoming_order (chunks : List ChatFileChunk) (now : Nat)
    (randSuffix : String) (h : chunks ≠ []) :
    ∃ msg, buildRagContextMessage chunks now randSuffix = .ok msg
      ∧ msg.metadata.chunkIds = chunks.map (fun c => c.id)
      ∧ (∀ c, chunks = [c] → msg.metadata.chunkIds = [c.id]) := by
  refine ⟨ragMessageOf chunks now randSuffix,
    buildRagContextMessage_ok chunks now randSuffix h, rfl, ?_⟩
  intro c hc
  subst hc
  rfl

/-- Witness for the amended C1: a single entry chunk yields `chunkIds = ["b"]`
(the chunk's id). -/
theorem claim1_witness :
    ([chunkEntry] : List ChatFileChunk) ≠ []
      ∧ ∃ msg, buildRagContextMessage [chunkEntry] 5 "z" = .ok msg
          ∧ msg.metadata.chunkIds = ["b"] := by
  refine ⟨by decide, ?_⟩
  obtain ⟨msg, hok, _, hsingle⟩ :=
    claim1_chunkIds_incoming_order [chunkEntry] 5 "z" (by decide)
  exact ⟨msg, hok, (hsingle chunkEntry rfl).trans rfl⟩

/-- C2 as stated is false for the shared client: `RAGClient.semanticSearch` in
`src/lib/rag/client.ts` throws on a 404 search response instead of returning the
empty result. -/
theorem claim2_counterexample :
    SharedRAGClient.semanticSearch reqEx { status := 404, body := bodyEx }
        = .error "RAG Semantic Search failed: 404"
      ∧ (SharedRAGClient.semanticSearch reqEx { status := 404, body := bodyEx }).toOption
        = none :=
  ⟨rfl, rfl⟩

/-- C2 amended: the server-side `RAGClient.semanticSearch`
(`src/lib/server/rag/client.ts`) maps a 404 to `{chunks: [], queryId: ""}` without
throwing, throws exactly on the other non-success statuses, and returns the body on
success; the shared client throws on every non-success status, 404 included. -/
theorem claim2_search_404_policy (request : SemanticSearchRequest)
    (response : SearchHttpResponse) :
    (response.status = 404 →
        ServerRAGClient.semanticSearch request response = .ok { chunks := [], queryId := "" })
      ∧ (responseOk response.status = false → response.status ≠ 404 →
          ServerRAGClient.semanticSearch request response
            = .error ("RAG search failed: " ++ toString response.status))
      ∧ (responseOk response.status = true →
          ServerRAGClient.semanticSearch request response = .ok response.body)
      ∧ (responseOk response.status = false →
          SharedRAGClient.semanticSearch request response
            = .error ("RAG Semantic Search failed: " ++ toString response.status)) := by
  refine ⟨?_, ?_, ?_, ?_⟩
  · intro h404
    simp [ServerRAGClient.semanticSearch, responseOk, h404]
  · intro hok hne
    simp only [ServerRAGClient.semanticSearch, hok, Bool.not_false, if_true]
    rw [if_neg hne]
  · intro hok
    simp [ServerRAGClient.semanticSearch, hok]
  · intro hok
    simp [SharedRAGClient.semanticSearch, hok]

/-- Witness for the amended C2 at concrete responses: 404 yields the empty result,
500 throws, 200 returns the body. -/
theorem claim2_witness :
    ServerRAGClient.semanticSearch reqEx { status := 404, body := bodyEx }
        = .ok { chunks := [], queryId := "" }
      ∧ ServerRAGClient.semanticSearch reqEx { status := 500, body := bodyEx }
        = .error "RAG search failed: 500"
      ∧ ServerRAGClient.semanticSearch reqEx { status := 200, body := bodyEx }
        = .ok bodyEx := by
  refine ⟨?_, ?_, ?_⟩
  · exact (claim2_search_404_policy reqEx { status := 404, body := bodyEx }).1 rfl
  · exact (claim2_search_404_policy reqEx { status := 500, body := bodyEx }).2.1 rfl
      (by decide)
  · exact (claim2_search_404_policy reqEx { status := 200, body := bodyEx }).2.2.1 rfl

/-- The poll loop with only ok-but-unfinished fetches ahead times out after consuming
all remaining attempts. -/
theorem pollAux_timeout (statusFetch : Nat → ServerRAGClient.StatusResponse) :
    ∀ (n start : Nat),
      (∀ j, j < n → responseOk (statusFetch (start + j)).status = true
          ∧ (statusFetch (start + j)).finishEmbedding = false) →
      ServerRAGClient.pollFileStatusAux statusFetch start n = .ok false
        ∧ ServerRAGClient.pollFetchCountAux statusFetch start n = n := by
  intro n
  induction n with
  | zero => exact fun start _ => ⟨rfl, rfl⟩
  | succ m ih =>
    intro start h
    have h0 := h 0 (Nat.succ_pos m)
    rw [Nat.add_zero] at h0
    have hrest : ∀ j, j < m → responseOk (statusFetch (start + 1 + j)).status = true
        ∧ (statusFetch (start + 1 + j)).finishEmbedding = false := by
      intro j hj
      have := h (j + 1) (Nat.succ_lt_succ hj)
      rwa [show start + (j + 1) = start + 1 + j by omega] at this
    have ihres := ih (start + 1) hrest
    constructor
    · simp only [ServerRAGClient.pollFileStatusAux, h0.1, h0.2, Bool.not_true,
        Bool.false_eq_true, if_false]
      exact ihres.1
    · simp only [ServerRAGClient.pollFetchCountAux, h0.1, h0.2, Bool.not_true,
        Bool.false_eq_true, if_false]
      rw [ihres.2]
      omega

/-- The poll loop returns `true` at the first fetch reporting `finishEmbedding`,
having performed exactly that many fetches. -/
theorem pollAux_ready (statusFetch : Nat → ServerRAGClient.StatusResponse) :
    ∀ (n start k : Nat), k < n →
      (∀ j, j < k → responseOk (statusFetch (start + j)).status = true
          ∧ (statusFetch (start + j)).finishEmbedding = false) →
      responseOk (statusFetch (start + k)).status = true →
      (statusFetch (start + k)).finishEmbedding = true →
      ServerRAGClient.pollFileStatusAux statusFetch start n = .ok true
        ∧ ServerRAGClient.pollFetchCountAux statusFetch start n = k + 1 := by
  intro n
  induction n with
  | zero => exact fun start k hk => absurd hk (Nat.not_lt_zero k)
  | succ m ih =>
    intro start k hk hprev hok hfin
    cases k with
    | zero =>
      rw [Nat.add_zero] at hok hfin
      constructor
      · simp only [ServerRAGClient.pollFileStatusAux, hok, hfin, Bool.not_true,
          Bool.false_eq_true, if_false, if_true]
      · simp only [ServerRAGClient.pollFetchCountAux, hok, hfin, Bool.not_true,
          Bool.false_eq_true, if_false, if_true]
    | succ k' =>
      have h0 := hprev 0 (Nat.succ_pos k')
      rw [Nat.add_zero] at h0
      have hprev' : ∀ j, j < k' → responseOk (statusFetch (start + 1 + j)).status = true
          ∧ (statusFetch (start + 1 + j)).finishEmbedding = false := by
        intro j hj
        have := hprev (j + 1) (Nat.succ_lt_succ hj)
        rwa [show start + (j + 1) = start + 1 + j by omega] at this
      have hok' : responseOk (statusFetch (start + 1 + k')).status = true := by
        rwa [show start + (k' + 1) = start + 1 + k' by omega] at hok
      have hfin' : (statusFetch (start + 1 + k')).finishEmbedding = true := by
        rwa [show start + (k' + 1) = start + 1 + k' by omega] at hfin
      have ihres := ih (start + 1) k' (Nat.lt_of_succ_lt_succ hk) hprev' hok' hfin'
      constructor
      · simp only [ServerRAGClient.pollFileStatusAux, h0.1, h0.2, Bool.not_true,
          Bool.false_eq_true, if_false]
        exact ihres.1
      · simp only [ServerRAGClient.pollFetchCountAux, h0.1, h0.2, Bool.not_true,
          Bool.false_eq_true, if_false]
        rw [ihres.2]
        omega

/-- C7: for `maxAttempts ≥ 1`, a file whose fetched status is never finished makes
`pollFileStatus` perform exactly `maxAttempts` fetches and return `false` (timeout,
not an error); a fetch reporting `finishEmbedding` makes it return `true` at that
attempt, with no further fetches. -/
theorem claim7_bounded_poll (statusFetch : Nat → ServerRAGClient.StatusResponse)
    (maxAttempts : Nat) (hpos : 1 ≤ maxAttempts) :
    ((∀ i, i < maxAttempts → responseOk (statusFetch i).status = true
          ∧ (statusFetch i).finishEmbedding = false) →
        ServerRAGClient.pollFileStatus statusFetch maxAttempts = .ok false
      ∧ ServerRAGClient.pollFetchCount statusFetch maxAttempts = maxAttempts)
      ∧ (∀ i, i < maxAttempts →
          (∀ j, j < i → responseOk (statusFetch j).status = true
              ∧ (statusFetch j).finishEmbedding = false) →
          responseOk (statusFetch i).status = true →
          (statusFetch i).finishEmbedding = true →
            ServerRAGClient.pollFileStatus statusFetch maxAttempts = .ok true
          ∧ ServerRAGClient.pollFetchCount statusFetch maxAttempts = i + 1) := by
  constructor
  · intro h
    exact pollAux_timeout statusFetch maxAttempts 0 fun j hj => by
      simpa using h j hj
  · intro i hi hprev hok hfin
    exact pollAux_ready statusFetch maxAttempts 0 i hi
      (fun j hj => by simpa using hprev j hj) (by simpa using hok) (by simpa using hfin)

/-- Witness for C7: with `maxAttempts = 3` and every fetch ok but unfinished, the
poll performs exactly 3 fetches and returns `false`; if the second fetch reports
finished, it returns `true` after exactly 2 fetches. -/
theorem claim7_witness :
    (ServerRAGClient.pollFileStatus (fun _ => { status := 200, finishEmbedding := false }) 3
        = .ok false
      ∧ ServerRAGClient.pollFetchCount (fun _ => { status := 200, finishEmbedding := false }) 3
        = 3)
      ∧ (ServerRAGClient.pollFileStatus
            (fun i => { status := 200, finishEmbedding := decide (i = 1) }) 3 = .ok true
        ∧ ServerRAGClient.pollFetchCount
            (fun i => { status := 200, finishEmbedding := decide (i = 1) }) 3 = 2) := by
  constructor
  · exact (claim7_bounded_poll (fun _ => { status := 200, finishEmbedding := false }) 3
      (by decide)).1 fun i _ => ⟨rfl, rfl⟩
  · exact (claim7_bounded_poll (fun i => { status := 200, finishEmbedding := decide (i = 1) }) 3
      (by decide)).2 1 (by decide)
      (fun j hj => by interval_cases j <;> exact ⟨rfl, rfl⟩) rfl (by decide)

/-- C3 as stated is false for `pollFileStatus`: a transient non-success status fetch
makes it abort with a thrown error after a single fetch instead of logging and
continuing to the next interval. -/
theorem claim3_counterexample :
    ServerRAGClient.pollFileStatus (fun _ => { status := 500, finishEmbedding := false }) 30
        = .error "File status check failed: 500"
      ∧ ServerRAGClient.pollFetchCount
          (fun _ => { status := 500, finishEmbedding := false }) 30 = 1 :=
  ⟨rfl, rfl⟩

/-- C3 amended: the batched interval poll (`loadFiles` in silent mode) treats a fetch
failure as transient — the file list and the polling flag are untouched, so polling
continues and no file is marked failed; the bounded single-file poll instead throws on
a non-success status fetch, aborting that poll. -/
theorem claim3_transient_fetch (st : FileManagerState) (e : String)
    (statusFetch : Nat → ServerRAGClient.StatusResponse) (n : Nat) :
    (loadFiles true (.error e) st).files = st.files
      ∧ (loadFiles true (.error e) st).pollActive = st.pollActive
      ∧ (loadFiles true (.error e) st).loading = st.loading
      ∧ (responseOk (statusFetch 0).status = false →
          ServerRAGClient.pollFileStatus statusFetch (n + 1)
            = .error ("File status check failed: " ++ toString (statusFetch 0).status)) := by
  refine ⟨rfl, rfl, rfl, ?_⟩
  intro h
  simp [ServerRAGClient.pollFileStatus, ServerRAGClient.pollFileStatusAux, h]

/-- Witness for the amended C3 at a concrete state and a concrete failing fetch. -/
theorem claim3_witness :
    (loadFiles true (.error "network down")
        { files := [], loading := false, errorMsg := "", pollActive := true }).files = []
      ∧ (loadFiles true (.error "network down")
          { files := [], loading := false, errorMsg := "", pollActive := true }).pollActive
        = true
      ∧ ServerRAGClient.pollFileStatus (fun _ => { status := 503, finishEmbedding := false }) 5
        = .error "File status check failed: 503" := by
  have h := claim3_transient_fetch
    { files := [], loading := false, errorMsg := "", pollActive := true } "network down"
    (fun _ => { status := 503, finishEmbedding := false }) 4
  exact ⟨h.1, h.2.1, h.2.2.2 rfl⟩

/-- C10 as stated is false in its positivity clause: a negative `top_k` is truthy, so
`-1` is forwarded to the service as given although it is not strictly positive. -/
theorem claim10_counterexample :
    (ServerRAGClient.searchPayload
        { messageId := "m", userQuery := "q", rewriteQuery := none, top_k := some (-1),
          fileIds := none }).top_k = -1
      ∧ ¬ (0 < (-1 : Int)) :=
  ⟨rfl, by decide⟩

/-- C10 amended: in both clients the `top_k` sent is 5 exactly when the request field
is absent or `0` (the falsy default `request.top_k || 5`); any non-zero value —
negative values included — is forwarded as given, and the value sent is never `0`. -/
theorem claim10_topk_default (request : SemanticSearchRequest) :
    ((request.top_k = none ∨ request.top_k = some 0) →
        (ServerRAGClient.searchPayload request).top_k = 5
      ∧ (SharedRAGClient.searchPayload request).top_k = 5)
      ∧ (∀ k, request.top_k = some k → k ≠ 0 →
          (ServerRAGClient.searchPayload request).top_k = k
        ∧ (SharedRAGClient.searchPayload request).top_k = k)
      ∧ (ServerRAGClient.searchPayload request).top_k ≠ 0
      ∧ (SharedRAGClient.searchPayload request).top_k ≠ 0 := by
  refine ⟨?_, ?_, ?_, ?_⟩
  · rintro (h | h) <;>
      simp [ServerRAGClient.searchPayload, SharedRAGClient.searchPayload, h]
  · intro k hk hne
    simp [ServerRAGClient.searchPayload, SharedRAGClient.searchPayload, hk, hne]
  · simp only [ServerRAGClient.searchPayload]
    cases h : request.top_k with
    | none => simp
    | some k =>
      by_cases hk : k = 0 <;> simp [hk]
  · simp only [SharedRAGClient.searchPayload]
    cases h : request.top_k with
    | none => simp
    | some k =>
      by_cases hk : k = 0 <;> simp [hk]

/-- Witness for the amended C10: absent and zero `top_k` become 5; `top_k = 7` is
forwarded unchanged. -/
theorem claim10_witness :
    (ServerRAGClient.searchPayload reqEx).top_k = 5
      ∧ (ServerRAGClient.searchPayload
          { messageId := "m", userQuery := "q", rewriteQuery := none, top_k := some 0,
            fileIds := none }).top_k = 5
      ∧ (ServerRAGClient.searchPayload
          { messageId := "m", userQuery := "q", rewriteQuery := none, top_k := some 7,
            fileIds := none }).top_k = 7 := by
  refine ⟨((claim10_topk_default reqEx).1 (Or.inl rfl)).1, ?_, ?_⟩
  · exact ((claim10_topk_default _).1 (Or.inr rfl)).1
  · exact ((claim10_topk_default
      { messageId := "m", userQuery := "q", rewriteQuery := none, top_k := some 7,
        fileIds := none }).2.1 7 rfl (by decide)).1

/-- C8: queries shorter than 5 or longer than 500 characters are returned unchanged by
both rewriter revisions, for every history, option set, and model outcome. -/
theorem claim8_length_gate (userQuery : String) (history : List Message)
    (options : RewriteOptions) (maxHistory : Nat) (modelResult : Except String String)
    (h : userQuery.length < 5 ∨ userQuery.length > 500) :
    rewriteQueryWithHistory userQuery history options modelResult = userQuery
      ∧ rewriteQueryWithHistoryLegacy userQuery history maxHistory modelResult
        = userQuery := by
  constructor
  · unfold rewriteQueryWithHistory
    rw [if_pos h]
  · unfold rewriteQueryWithHistoryLegacy
    rw [if_pos h]

/-- Witness for C8: the two-character query `"hi"` passes through unchanged. -/
theorem claim8_witness :
    ("hi".length < 5 ∨ "hi".length > 500)
      ∧ rewriteQueryWithHistory "hi" [] {} (.ok "hello there friend") = "hi"
      ∧ rewriteQueryWithHistoryLegacy "hi" [] 3 (.ok "hello there friend") = "hi" := by
  have h := claim8_length_gate "hi" [] {} 3 (.ok "hello there friend")
    (Or.inl (by decide))
  exact ⟨Or.inl (by decide), h.1, h.2⟩

/-- C9: an exception raised by the model invocation (reaching the `catch` block) makes
both rewriter revisions return the original query; no error propagates. -/
theorem claim9_rewrite_never_fails (userQuery : String) (history : List Message)
    (options : RewriteOptions) (maxHistory : Nat) (e : String) :
    rewriteQueryWithHistory userQuery history options (.error e) = userQuery
      ∧ rewriteQueryWithHistoryLegacy userQuery history maxHistory (.error e)
        = userQuery := by
  constructor
  · unfold rewriteQueryWithHistory
    repeat' split
    all_goals simp_all
  · unfold rewriteQueryWithHistoryLegacy
    repeat' split
    all_goals simp_all

/-- C4 as stated is false for the legacy rewriter revision appended to
`urlSafety.ts`: at a concrete input whose query names `auth.py` it accepts a rewrite
that contains no filename token. -/
theorem claim4_counterexample :
    hasFilenameReference "auth.py problem" = true
      ∧ hasFilenameReference (legacyCleanOutput "login overview text") = false
      ∧ rewriteQueryWithHistoryLegacy "auth.py problem"
          [{ «from» := "user", content := "hi" }] 3 (.ok "login overview text")
        = "login overview text" :=
  ⟨rfl, rfl, rfl⟩

/-- C4 amended: the current rewriter (`src/lib/server/rag/queryRewriter.ts`) discards
any cleaned output lacking a filename token when the original query has one, and
returns the original query; the legacy revision has no such check. -/
theorem claim4_filename_guard (userQuery : String) (history : List Message)
    (options : RewriteOptions) (raw : String)
    (hq : hasFilenameReference userQuery = true)
    (hc : hasFilenameReference (cleanRewriteOutput raw) = false) :
    rewriteQueryWithHistory userQuery history options (.ok raw) = userQuery := by
  unfold rewriteQueryWithHistory
  repeat' split
  all_goals simp_all

/-- Witness for the amended C4: a rewrite that drops `auth.py` is rejected and the
original query returned. -/
theorem claim4_witness :
    hasFilenameReference "auth.py login flow details" = true
      ∧ hasFilenameReference (cleanRewriteOutput "general login information") = false
      ∧ rewriteQueryWithHistory "auth.py login flow details"
          [{ «from» := "user", content := "hi" }] { maxHistoryMessages := 3 }
          (.ok "general login information")
        = "auth.py login flow details" :=
  ⟨rfl, rfl,
    claim4_filename_guard "auth.py login flow details"
      [{ «from» := "user", content := "hi" }] { maxHistoryMessages := 3 }
      "general login information" rfl rfl⟩

end ChatUiRag
